import Mathlib

/-!
Verification of the inventory-comparison pipeline of `streamlit_app.py`
(repository `inventaires_agences`).

The embedding below mirrors, stage by stage, the two core functions
`charger_inventaire` and `comparer_deux_agences`, together with the
report-generation loop of the button handler.  pandas data frames are
modelled positionally: a `DataFrame` is a list of header labels plus a
list of rows, each row a list of `Cell`s.  A pandas `NaN` is `Cell.null`
(for raw cells) resp. `none` (for coerced numeric values); numeric
source cells are modelled by `Int` (pandas integer columns).  Python
strings are Lean `String`s; `str.lower()` is modelled for the Latin-1
letter range which is the encoding accepted by the application.
-/

namespace Inventaires

/-- Non-breaking space, the character removed by the header / number cleanup. -/
def nbspChar : Char := '\u00A0'

/-- Replacement of every occurrence of one character by a string, on
character lists.  Every `str.replace` call of the program has a
one-character pattern, so this models all of them. -/
def remplacerChar (a : Char) (rempl : List Char) : List Char → List Char
  | [] => []
  | c :: reste => (if c = a then rempl else [c]) ++ remplacerChar a rempl reste

/-- Model of Python `s.replace(a, r)` for a one-character pattern `a`. -/
def remplacer (s : String) (a : Char) (r : String) : String :=
  String.mk (remplacerChar a r.data s.data)

/-- Model of Python `s.strip()`: drop leading and trailing whitespace. -/
def couper (s : String) : String :=
  String.mk (((s.data.dropWhile Char.isWhitespace).reverse.dropWhile Char.isWhitespace).reverse)

/-- Model of Python slicing `s[:n]`. -/
def prendre (s : String) (n : Nat) : String := String.mk (s.data.take n)

/-- Model of Python `str.lower()` on one character, covering ASCII and the
Latin-1 uppercase letters (the application reads Latin-1 CSV files).  The
Latin-1 uppercase block is U+00C0 to U+00DE minus the multiplication sign;
lowering adds 32, exactly as Python does for these characters. -/
def pyMinusculeChar (c : Char) : Char :=
  if 'A' ≤ c ∧ c ≤ 'Z' then Char.ofNat (c.toNat + 32)
  else if 'À' ≤ c ∧ c ≤ 'Þ' ∧ c ≠ '×' then Char.ofNat (c.toNat + 32)
  else c

/-- Model of Python `str.lower()`. -/
def pyMinuscule (s : String) : String := String.mk (s.data.map pyMinusculeChar)

/-- Boolean test that `m` is an initial segment of the character list. -/
def debutListe : List Char → List Char → Bool
  | [], _ => true
  | _ :: _, [] => false
  | a :: as, b :: bs => a == b && debutListe as bs

/-- Helper for substring search: does `m` occur as a contiguous block of `l`. -/
def sousChaineAux (m : List Char) : List Char → Bool
  | [] => debutListe m []
  | b :: bs => debutListe m (b :: bs) || sousChaineAux m bs

/-- Model of Python `motif in s` on strings (contiguous substring test). -/
def pyIn (motif s : String) : Bool := sousChaineAux motif.toList s.toList

/-- Model of Python `s.startswith(motif)`. -/
def commencePar (s motif : String) : Bool := debutListe motif.toList s.toList

/-- Header cleanup of line 49: `c.replace("\xa0", " ").strip()`. -/
def nettoyerColonne (c : String) : String := couper (remplacer c nbspChar " ")

/-- Per-header normalisation of line 63: `col.lower().replace("\xa0", " ")`.
Note that no accent folding happens here. -/
def colClean (col : String) : String := remplacer (pyMinuscule col) nbspChar " "

/-- One raw cell of a read table: a text cell, an integer-typed numeric cell,
or a missing value (pandas `NaN`). -/
inductive Cell where
  | str (s : String)
  | int (n : Int)
  | null
deriving DecidableEq

/-- A read file: header labels and rows of cells, positionally aligned. -/
structure DataFrame where
  entetes : List String
  lignes : List (List Cell)

/-- Cell of a row at a column index; pandas fills absent cells with `NaN`. -/
def cellAt (l : List Cell) (i : Nat) : Cell := l.getD i Cell.null

/-- The mapping `col_map` built by the resolver loop: for each of the five
canonical fields, the actual header assigned to it, if any. -/
structure ColMap where
  codeArticle : Option String := none
  designation : Option String := none
  stockTheorique : Option String := none
  stockPhysique : Option String := none
  ecart : Option String := none
deriving DecidableEq

/-- One step of the resolver loop (lines 62 to 73): the `elif` chain testing
the five patterns in order, each branch also requiring that its field is not
yet assigned. -/
def etapeColonne (m : ColMap) (col : String) : ColMap :=
  let cc := colClean col
  if pyIn "code article" cc && m.codeArticle.isNone then { m with codeArticle := some col }
  else if pyIn "désignation" cc && m.designation.isNone then { m with designation := some col }
  else if pyIn "stock théorique" cc && m.stockTheorique.isNone then { m with stockTheorique := some col }
  else if pyIn "stock physique" cc && m.stockPhysique.isNone then { m with stockPhysique := some col }
  else if commencePar cc "ecart" && m.ecart.isNone then { m with ecart := some col }
  else m

/-- The Column Resolver: the loop over `df.columns` building `col_map`. -/
def resoudreColonnes (cols : List String) : ColMap := cols.foldl etapeColonne {}

/-- The five canonical fields, in the order the `elif` chain tests them. -/
inductive Champ where
  | codeArticle
  | designation
  | stockTheorique
  | stockPhysique
  | ecart
deriving DecidableEq

/-- Field accessor on the resolver map. -/
def champDe (m : ColMap) : Champ → Option String
  | .codeArticle => m.codeArticle
  | .designation => m.designation
  | .stockTheorique => m.stockTheorique
  | .stockPhysique => m.stockPhysique
  | .ecart => m.ecart

/-- The branch condition of the `elif` chain for one field: its pattern test
on the normalised header, and the field being still unassigned. -/
def condChamp (f : Champ) (col : String) (m : ColMap) : Bool :=
  let cc := colClean col
  match f with
  | .codeArticle => pyIn "code article" cc && m.codeArticle.isNone
  | .designation => pyIn "désignation" cc && m.designation.isNone
  | .stockTheorique => pyIn "stock théorique" cc && m.stockTheorique.isNone
  | .stockPhysique => pyIn "stock physique" cc && m.stockPhysique.isNone
  | .ecart => commencePar (colClean col) "ecart" && m.ecart.isNone

/-- Assignment of one header to one field of the map. -/
def affecterChamp (f : Champ) (col : String) (m : ColMap) : ColMap :=
  match f with
  | .codeArticle => { m with codeArticle := some col }
  | .designation => { m with designation := some col }
  | .stockTheorique => { m with stockTheorique := some col }
  | .stockPhysique => { m with stockPhysique := some col }
  | .ecart => { m with ecart := some col }

/-- The `elif` order of the five fields. -/
def ordreChamps : List Champ :=
  [.codeArticle, .designation, .stockTheorique, .stockPhysique, .ecart]

/-- Rule-list reading of one resolver step: apply the first field, in the
fixed order, whose condition holds on this header. -/
def appliqueRegles (m : ColMap) (col : String) : ColMap :=
  match ordreChamps.find? (fun f => condChamp f col m) with
  | some f => affecterChamp f col m
  | none => m

theorem etapeColonne_eq_appliqueRegles (m : ColMap) (col : String) :
    etapeColonne m col = appliqueRegles m col := by
  unfold etapeColonne appliqueRegles ordreChamps
  by_cases h1 : (pyIn "code article" (colClean col) && m.codeArticle.isNone) = true
  · simp [List.find?, condChamp, h1, affecterChamp]
  · by_cases h2 : (pyIn "désignation" (colClean col) && m.designation.isNone) = true
    · simp [List.find?, condChamp, h1, h2, affecterChamp]
    · by_cases h3 : (pyIn "stock théorique" (colClean col) && m.stockTheorique.isNone) = true
      · simp [List.find?, condChamp, h1, h2, h3, affecterChamp]
      · by_cases h4 : (pyIn "stock physique" (colClean col) && m.stockPhysique.isNone) = true
        · simp [List.find?, condChamp, h1, h2, h3, h4, affecterChamp]
        · by_cases h5 : (commencePar (colClean col) "ecart" && m.ecart.isNone) = true
          · simp [List.find?, condChamp, h1, h2, h3, h4, h5, affecterChamp]
          · simp [List.find?, condChamp, h1, h2, h3, h4, h5]

/-- The five canonical labels, in the order of `required_logical_cols`. -/
def colonnesRequises : List String :=
  ["Code article", "Désignation", "Stock théorique", "Stock physique", "Ecart"]

/-- Keyed access to `col_map` by canonical label, mirroring the dict. -/
def champCarte (m : ColMap) (nom : String) : Option String :=
  if nom = "Code article" then m.codeArticle
  else if nom = "Désignation" then m.designation
  else if nom = "Stock théorique" then m.stockTheorique
  else if nom = "Stock physique" then m.stockPhysique
  else if nom = "Ecart" then m.ecart
  else none

/-- Line 75: `[c for c in required_logical_cols if c not in col_map]`. -/
def colonnesManquantes (m : ColMap) : List String :=
  colonnesRequises.filter (fun c => (champCarte m c).isNone)

/-- Model of Python `str(x)` on a cell (pandas `astype(str)`); a missing
value stringifies to `"nan"`. -/
def astypeStr : Cell → String
  | .str s => s
  | .int n => toString n
  | .null => "nan"

/-- Value of a digit list read in base 10. -/
def chiffresVersNat (ds : List Char) : Nat :=
  ds.foldl (fun n c => 10 * n + (c.toNat - 48)) 0

/-- Model of `pd.to_numeric(·, errors="coerce")` on one already-cleaned text
value, for the plain decimal numerals the pipeline feeds it: an optional
sign, an integer part and an optional fractional part after a dot; at least
one digit is required.  Anything else (including `"nan"`, which pandas turns
into a missing value) coerces to `none`.  The rational is built with
`mkRat`, which the kernel can evaluate; `versNumerique_point` below states
the value in ordinary arithmetic. -/
def versNumerique (s : String) : Option ℚ :=
  let cs := s.toList
  let signe : Int × List Char :=
    match cs with
    | '-' :: t => (-1, t)
    | '+' :: t => (1, t)
    | _ => (1, cs)
  let ent := signe.2.takeWhile Char.isDigit
  let reste := signe.2.dropWhile Char.isDigit
  match reste with
  | [] => if ent.isEmpty then none else some (mkRat (signe.1 * chiffresVersNat ent) 1)
  | '.' :: frac =>
    if frac.all Char.isDigit && !(ent.isEmpty && frac.isEmpty) then
      some (mkRat (signe.1 * (chiffresVersNat ent * 10 ^ frac.length + chiffresVersNat frac))
        (10 ^ frac.length))
    else none
  | _ => none

/-- Lines 102 to 109 applied to one cell: `astype(str)`, strip non-breaking
spaces, strip regular spaces, turn the comma into a dot, then coerce to a
number, unparsable values becoming `none`. -/
def convertirNumerique (c : Cell) : Option ℚ :=
  versNumerique (remplacer (remplacer (remplacer (astypeStr c) nbspChar "") ' ' "") ',' ".")

/-- A projected row: the five selected cells of one raw row (line 82). -/
structure LigneBrute where
  code : Cell
  designation : Cell
  stockTheorique : Cell
  stockPhysique : Cell
  ecart : Cell
deriving DecidableEq

/-- A projected row after numeric conversion of the three numeric fields. -/
structure LigneConv where
  code : Cell
  designation : Cell
  stockTheorique : Option ℚ
  stockPhysique : Option ℚ
  ecart : Option ℚ
deriving DecidableEq

/-- One row of a canonical inventory table. -/
structure Ligne where
  codeArticle : String
  designation : Cell
  stockTheorique : Option ℚ
  stockPhysique : Option ℚ
  ecart : Option ℚ
deriving DecidableEq

/-- First index of a header label in the header list (pandas column lookup). -/
def indiceDe (nom : String) : List String → Nat
  | [] => 0
  | c :: reste => if c = nom then 0 else 1 + indiceDe nom reste

/-- The projection of line 82: select, per raw row, the five cells of the
columns designated by `col_map`. -/
def projeterLigne (entetes : List String) (m : ColMap) (l : List Cell) : LigneBrute :=
  { code := cellAt l (indiceDe ((champCarte m "Code article").getD "") entetes)
    designation := cellAt l (indiceDe ((champCarte m "Désignation").getD "") entetes)
    stockTheorique := cellAt l (indiceDe ((champCarte m "Stock théorique").getD "") entetes)
    stockPhysique := cellAt l (indiceDe ((champCarte m "Stock physique").getD "") entetes)
    ecart := cellAt l (indiceDe ((champCarte m "Ecart").getD "") entetes) }

/-- Numeric conversion of the three numeric columns of a projected row. -/
def convertirLigne (l : LigneBrute) : LigneConv :=
  { code := l.code
    designation := l.designation
    stockTheorique := convertirNumerique l.stockTheorique
    stockPhysique := convertirNumerique l.stockPhysique
    ecart := convertirNumerique l.ecart }

/-- Lines 112 and 113: drop the rows whose item-code cell is missing, then
stringify and trim the item code of the surviving rows. -/
def finaliserLignes (conv : List LigneConv) : List Ligne :=
  (conv.filter (fun l => !decide (l.code = Cell.null))).map
    (fun l =>
      { codeArticle := couper (astypeStr l.code)
        designation := l.designation
        stockTheorique := l.stockTheorique
        stockPhysique := l.stockPhysique
        ecart := l.ecart })

/-- The Inventory Parser `charger_inventaire`, from the point where the file
has been read into a raw `DataFrame`: clean the headers, resolve the columns,
fail with the missing canonical labels and the cleaned headers if any of the
five is unresolved, otherwise project, coerce the numeric columns, drop the
rows without an item code and trim the item codes. -/
def chargerInventaire (df : DataFrame) :
    Except (List String × List String) (List Ligne) :=
  let entetes := df.entetes.map nettoyerColonne
  let m := resoudreColonnes entetes
  if colonnesManquantes m = [] then
    Except.ok (finaliserLignes ((df.lignes.map (projeterLigne entetes m)).map convertirLigne))
  else
    Except.error (colonnesManquantes m, entetes)

/-- One row of a pairwise comparison (the frame built at line 148). -/
structure LigneComp where
  agence : String
  agenceComparee : String
  codeArticle : String
  designation : Cell
  stockTheorique : Option ℚ
  stockPhysique : Option ℚ
  ecartRef : Option ℚ
  ecartAutre : Option ℚ
  ecartDes2 : Option ℚ
  sommeEcarts : Option ℚ
deriving DecidableEq

/-- Rational addition written through `mkRat` so that the kernel can
evaluate it; `qAjoute_eq_add` proves it is the addition of `ℚ`. -/
def qAjoute (x y : ℚ) : ℚ := mkRat (x.num * y.den + y.num * x.den) (x.den * y.den)

/-- Rational subtraction written through `mkRat`; `qSoustrait_eq_sub`
proves it is the subtraction of `ℚ`. -/
def qSoustrait (x y : ℚ) : ℚ := mkRat (x.num * y.den - y.num * x.den) (x.den * y.den)

theorem qAjoute_eq_add (x y : ℚ) : qAjoute x y = x + y := by
  have hx : ((x.den : ℚ)) ≠ 0 := by
    exact_mod_cast x.den_nz
  have hy : ((y.den : ℚ)) ≠ 0 := by
    exact_mod_cast y.den_nz
  unfold qAjoute
  rw [Rat.mkRat_eq_div]
  conv_rhs => rw [← Rat.num_div_den x, ← Rat.num_div_den y, div_add_div _ _ hx hy]
  push_cast
  ring_nf

theorem qSoustrait_eq_sub (x y : ℚ) : qSoustrait x y = x - y := by
  have hx : ((x.den : ℚ)) ≠ 0 := by
    exact_mod_cast x.den_nz
  have hy : ((y.den : ℚ)) ≠ 0 := by
    exact_mod_cast y.den_nz
  unfold qSoustrait
  rw [Rat.mkRat_eq_div]
  conv_rhs => rw [← Rat.num_div_den x, ← Rat.num_div_den y, div_sub_div _ _ hx hy]
  push_cast
  ring_nf

/-- Missing-propagating sum, the pandas arithmetic on nullable columns. -/
def sommeOpt (x y : Option ℚ) : Option ℚ :=
  match x, y with
  | some a, some b => some (qAjoute a b)
  | _, _ => none

/-- Missing-propagating difference. -/
def diffOpt (x y : Option ℚ) : Option ℚ :=
  match x, y with
  | some a, some b => some (qSoustrait a b)
  | _, _ => none

/-- One merged row of `comparer_deux_agences`: identification columns, the
reference-side description and stocks, both discrepancies, and the two
derived columns of lines 162 and 163. -/
def ligneComparaison (nomA nomB : String) (ra rb : Ligne) : LigneComp :=
  { agence := nomA
    agenceComparee := nomB
    codeArticle := ra.codeArticle
    designation := ra.designation
    stockTheorique := ra.stockTheorique
    stockPhysique := ra.stockPhysique
    ecartRef := ra.ecart
    ecartAutre := rb.ecart
    ecartDes2 := diffOpt rb.ecart ra.ecart
    sommeEcarts := sommeOpt ra.ecart rb.ecart }

/-- The inner merge of line 142: pandas keeps the left (reference) row
order and fans the key matches out, the right matches in right order. -/
def jointureInterne (nomA : String) (a : List Ligne) (nomB : String) (b : List Ligne) :
    List LigneComp :=
  a.flatMap (fun ra =>
    (b.filter (fun rb => rb.codeArticle == ra.codeArticle)).map
      (ligneComparaison nomA nomB ra))

/-- The sort key of line 166: absolute value of the combined sum; only ever
applied to rows whose combined sum is present. -/
def absCle (o : Option ℚ) : ℚ :=
  match o with
  | some q => |q|
  | none => 0

/-- Comparison placing greater absolute combined sums first. -/
def relTri (x y : LigneComp) : Prop := absCle y.sommeEcarts ≤ absCle x.sommeEcarts

instance : DecidableRel relTri := fun x y =>
  inferInstanceAs (Decidable (absCle y.sommeEcarts ≤ absCle x.sommeEcarts))

/-- The sort of line 166, `sort_values(key=abs, ascending=False)` with the
default missing-last placement: rows with a missing combined sum go last in
input order; the remaining rows are ordered by decreasing absolute combined
sum.  pandas applies its default `quicksort` here, which it does not
document as stable; the embedding uses a stable insertion sort, so the tie
order of this model is input order. -/
def trierParSomme (l : List LigneComp) : List LigneComp :=
  List.insertionSort relTri (l.filter (fun r => r.sommeEcarts.isSome)) ++
    l.filter (fun r => !r.sommeEcarts.isSome)

/-- The Pairwise Comparator `comparer_deux_agences`: inner merge on the item
code, derived columns, then the sort of line 166. -/
def comparerDeuxAgences (nomA : String) (a : List Ligne) (nomB : String) (b : List Ligne) :
    List LigneComp :=
  trierParSomme (jointureInterne nomA a nomB b)

/-- One sheet of a generated report. -/
structure Feuille where
  nom : String
  donnees : List LigneComp
deriving DecidableEq

/-- One generated report: the reference agency and its sheets. -/
structure Rapport where
  agence : String
  feuilles : List Feuille
deriving DecidableEq

/-- One agency slot of the upload form: the typed name and the uploaded
file, already read into a raw `DataFrame` when present. -/
structure Saisie where
  nomAgence : String
  fichier : Option DataFrame

/-- The collection loop of lines 177 to 202: keep an agency when a file was
uploaded, the typed name is non-empty once stripped, and the file parses;
a parse error only skips that agency. -/
def collecterAgences (saisies : List Saisie) : List (String × List Ligne) :=
  saisies.filterMap (fun s =>
    match s.fichier with
    | none => none
    | some df =>
      if couper s.nomAgence = "" then none
      else
        match chargerInventaire df with
        | .error _ => none
        | .ok t => some (couper s.nomAgence, t))

/-- An agency slot that contributes to the comparison set: a file present,
a non-empty stripped name, and a successful parse. -/
def estValide (s : Saisie) : Bool :=
  match s.fichier with
  | none => false
  | some df =>
    !(couper s.nomAgence == "") &&
      (match chargerInventaire df with
       | .error _ => false
       | .ok _ => true)

/-- The report-generation handler of lines 206 to 226: refuse with no output
when fewer than two valid agencies exist; otherwise build one report per
agency, with one sheet per other agency in input order, each sheet named by
concatenation truncated to 31 characters and filled by the Pairwise
Comparator. -/
def genererRapports (infos : List (String × List Ligne)) : Option (List Rapport) :=
  if infos.length < 2 then none
  else
    some (infos.enum.map (fun pi =>
      { agence := pi.2.1
        feuilles := infos.enum.filterMap (fun pj =>
          if pj.1 = pi.1 then none
          else
            some { nom := prendre (pi.2.1 ++ "_vs_" ++ pj.2.1) 31
                   donnees := comparerDeuxAgences pi.2.1 pi.2.2 pj.2.1 pj.2.2 }) }))

/-! Shared helper lemmas. -/

theorem champ_affecte_unique (f0 f : Champ) (col : String) (m : ColMap)
    (h : champDe (affecterChamp f0 col m) f ≠ champDe m f) : f = f0 := by
  cases f0 <;> cases f <;> simp [affecterChamp, champDe] at h ⊢

theorem appliqueRegles_champ_fixe (m : ColMap) (col : String) (f g : Champ)
    (hf : champDe (appliqueRegles m col) f ≠ champDe m f)
    (hg : champDe (appliqueRegles m col) g ≠ champDe m g) : f = g := by
  unfold appliqueRegles at hf hg
  cases h : ordreChamps.find? (fun f => condChamp f col m) with
  | none => rw [h] at hf; exact absurd rfl hf
  | some f0 =>
    rw [h] at hf hg
    rw [champ_affecte_unique f0 f col m hf, champ_affecte_unique f0 g col m hg]

instance {ε α : Type} [DecidableEq ε] [DecidableEq α] : DecidableEq (Except ε α) :=
  fun x y =>
    match x, y with
    | .ok a, .ok b =>
      if h : a = b then isTrue (by rw [h]) else isFalse (by simp [h])
    | .error a, .error b =>
      if h : a = b then isTrue (by rw [h]) else isFalse (by simp [h])
    | .ok _, .error _ => isFalse (by simp)
    | .error _, .ok _ => isFalse (by simp)

/-- The headers of the counterexample file: canonical except for the
accented discrepancy header. -/
def entetesAccent : List String :=
  ["Code article", "Désignation", "Stock théorique", "Stock physique", "Écart"]

/-- Claim C1 counterexample file. -/
def dfAccent : DataFrame := { entetes := entetesAccent, lignes := [] }

/-- C1, counterexample.  A header beginning with the accented "Écart" is
not assigned to the discrepancy field: its normalisation is "écart", the
leading-text test against the literal "ecart" fails, the resolver leaves the
discrepancy field unassigned and the parse fails reporting "Ecart" as
missing.  This refutes the accent-insensitivity asserted by the claim. -/
theorem claim1_contre_exemple :
    colClean "Écart" = "écart" ∧
    commencePar (colClean "Écart") "ecart" = false ∧
    (resoudreColonnes entetesAccent).ecart = none ∧
    chargerInventaire dfAccent =
      Except.error (["Ecart"], entetesAccent) := by
  refine ⟨by decide, by decide, by decide, by decide⟩

/-- C1, amended.  A header is assigned to the discrepancy field exactly
when its normalisation (lower-casing without accent folding, non-breaking
spaces turned into spaces) starts with the literal "ecart", the
discrepancy field is still unassigned, and no earlier branch of the chain
captures the header.  The leading-text test is case-insensitive ("ECART"
passes) but accent-sensitive ("Écart" fails). -/
theorem claim1_amende :
    (∀ (m : ColMap) (col : String),
      ((etapeColonne m col).ecart ≠ m.ecart) ↔
        (commencePar (colClean col) "ecart" = true ∧ m.ecart = none ∧
          condChamp .codeArticle col m = false ∧
          condChamp .designation col m = false ∧
          condChamp .stockTheorique col m = false ∧
          condChamp .stockPhysique col m = false)) ∧
    (∀ (m : ColMap) (col : String),
      (etapeColonne m col).ecart ≠ m.ecart → (etapeColonne m col).ecart = some col) ∧
    commencePar (colClean "ECART") "ecart" = true ∧
    commencePar (colClean "Écart") "ecart" = false := by
  refine ⟨fun m col => ?_, fun m col => ?_, by decide, by decide⟩
  · simp only [etapeColonne]
    split_ifs with h1 h2 h3 h4 h5
    · simp [condChamp, h1]
    · simp [condChamp, h2]
    · simp [condChamp, h3]
    · simp [condChamp, h4]
    · simp only [Bool.and_eq_true, Option.isNone_iff_eq_none] at h5
      simp [condChamp, h5.1, h5.2, Bool.eq_false_iff, h1, h2, h3, h4]
    · constructor
      · intro h
        exact absurd rfl h
      · rintro ⟨hc, hn, -, -, -, -⟩
        refine absurd ?_ h5
        simp [hc, hn]
  · simp only [etapeColonne]
    split_ifs with h1 h2 h3 h4 h5
    · intro h
      exact absurd rfl h
    · intro h
      exact absurd rfl h
    · intro h
      exact absurd rfl h
    · intro h
      exact absurd rfl h
    · intro h
      rfl
    · intro h
      exact absurd rfl h

/-- C10.  Each resolver step applies the first field, in the fixed order
item code, description, theoretical stock, physical stock, discrepancy,
whose pattern matches the header and which is still unassigned; at most
one field of the mapping changes, so a header is assigned to at most one
canonical field. -/
theorem claim10_premier_champ (m : ColMap) (col : String) :
    etapeColonne m col = appliqueRegles m col ∧
    (∀ f g : Champ, champDe (etapeColonne m col) f ≠ champDe m f →
      champDe (etapeColonne m col) g ≠ champDe m g → f = g) := by
  refine ⟨etapeColonne_eq_appliqueRegles m col, fun f g hf hg => ?_⟩
  rw [etapeColonne_eq_appliqueRegles m col] at hf hg
  exact appliqueRegles_champ_fixe m col f g hf hg

/-- C10 witness: on the header "Ecart", starting from the empty mapping,
only the discrepancy field changes. -/
theorem claim10_temoin :
    champDe (etapeColonne {} "Ecart") Champ.ecart ≠ champDe {} Champ.ecart ∧
    Champ.ecart = Champ.ecart :=
  ⟨by decide, (claim10_premier_champ {} "Ecart").2 Champ.ecart Champ.ecart
    (by decide) (by decide)⟩

/-- C4.  Numeric coercion on the three numeric fields: the locale string
"1 234,56" (regular or non-breaking thousands separator, comma decimal)
parses to 1234.56, "abc" parses to missing, an already numeric 7 parses
to 7; and the conversion stage applies this one function to exactly the
three numeric fields of every projected row. -/
theorem claim4_coercion :
    convertirNumerique (Cell.str "1 234,56") = some (1234.56 : ℚ) ∧
    convertirNumerique (Cell.str "1\u00A0234,56") = some (1234.56 : ℚ) ∧
    convertirNumerique (Cell.str "abc") = none ∧
    convertirNumerique (Cell.int 7) = some 7 ∧
    (∀ l : LigneBrute,
      (convertirLigne l).stockTheorique = convertirNumerique l.stockTheorique ∧
      (convertirLigne l).stockPhysique = convertirNumerique l.stockPhysique ∧
      (convertirLigne l).ecart = convertirNumerique l.ecart) := by
  have hval : (mkRat 123456 100) = (1234.56 : ℚ) := by
    rw [Rat.mkRat_eq_div]
    norm_num
  have h7 : (mkRat 7 1) = (7 : ℚ) := by
    rw [Rat.mkRat_eq_div]
    norm_num
  refine ⟨?_, ?_, by decide, ?_, fun l => ⟨rfl, rfl, rfl⟩⟩
  · rw [← hval]
    decide
  · rw [← hval]
    decide
  · rw [← h7]
    decide

/-- C6.  Column resolution fails exactly when at least one of the five
canonical fields is left unassigned after scanning all (cleaned) headers;
the error carries the list of missing canonical labels and the full list
of headers found; when all five resolve, a table is returned. -/
theorem claim6_echec_resolution (df : DataFrame) :
    (∀ e, chargerInventaire df = Except.error e ↔
      (colonnesManquantes (resoudreColonnes (df.entetes.map nettoyerColonne)) ≠ [] ∧
        e = (colonnesManquantes (resoudreColonnes (df.entetes.map nettoyerColonne)),
          df.entetes.map nettoyerColonne))) ∧
    (colonnesManquantes (resoudreColonnes (df.entetes.map nettoyerColonne)) = [] →
      ∃ t, chargerInventaire df = Except.ok t) := by
  simp only [chargerInventaire]
  split_ifs with h
  · exact ⟨fun e => by simp [h], fun hc => ⟨_, rfl⟩⟩
  · refine ⟨fun e => ⟨fun he => ?_, fun he => ?_⟩, fun hc => absurd hc h⟩
    · injection he with h2
      exact ⟨h, h2.symm⟩
    · rw [he.2]

/-- The headers of a file missing four canonical columns. -/
def dfMauvais : DataFrame := { entetes := ["Code article"], lignes := [] }

/-- C6 witness: a file whose only header is "Code article" fails with the
four other canonical labels reported missing and the headers echoed. -/
theorem claim6_temoin :
    chargerInventaire dfMauvais =
      Except.error (["Désignation", "Stock théorique", "Stock physique", "Ecart"],
        ["Code article"]) :=
  ((claim6_echec_resolution dfMauvais).1 _).mpr ⟨by decide, by decide⟩

theorem trierParSomme_perm (l : List LigneComp) : List.Perm (trierParSomme l) l := by
  unfold trierParSomme
  exact ((List.perm_insertionSort relTri _).append_right _).trans
    (List.filter_append_perm (fun r => r.sommeEcarts.isSome) l)

theorem mem_jointure {nomA nomB : String} {a b : List Ligne} {r : LigneComp}
    (h : r ∈ jointureInterne nomA a nomB b) :
    ∃ ra ∈ a, ∃ rb ∈ b, rb.codeArticle = ra.codeArticle ∧
      r = ligneComparaison nomA nomB ra rb := by
  unfold jointureInterne at h
  rw [List.mem_flatMap] at h
  obtain ⟨ra, hra, hr⟩ := h
  rw [List.mem_map] at hr
  obtain ⟨rb, hrb, rfl⟩ := hr
  rw [List.mem_filter] at hrb
  exact ⟨ra, hra, rb, hrb.1, by simpa using hrb.2, rfl⟩

theorem mem_comparer {nomA nomB : String} {a b : List Ligne} {r : LigneComp}
    (h : r ∈ comparerDeuxAgences nomA a nomB b) :
    ∃ ra ∈ a, ∃ rb ∈ b, rb.codeArticle = ra.codeArticle ∧
      r = ligneComparaison nomA nomB ra rb :=
  mem_jointure ((trierParSomme_perm _).mem_iff.mp h)

/-- A one-column inventory row used by the concrete comparison examples. -/
def ligneEx (c : String) (n : Int) : Ligne :=
  { codeArticle := c, designation := Cell.null, stockTheorique := none,
    stockPhysique := none, ecart := some (mkRat n 1) }

/-- Reference table of the join-size example: item codes A, A, B. -/
def tableRefExemple : List Ligne := [ligneEx "A" 1, ligneEx "A" 2, ligneEx "B" 3]

/-- Other table of the join-size example: item codes A, C. -/
def tableAutreExemple : List Ligne := [ligneEx "A" 5, ligneEx "C" 7]

/-- C5.  The comparator output is a permutation of the inner join on item
code (so only common item codes appear, with fan-out on duplicates), every
output row takes description, theoretical stock and physical stock from
the matching reference row, and the concrete tables with reference codes
A, A, B and other codes A, C produce exactly two rows. -/
theorem claim5_jointure :
    (∀ (nomA : String) (a : List Ligne) (nomB : String) (b : List Ligne),
      List.Perm (comparerDeuxAgences nomA a nomB b) (jointureInterne nomA a nomB b) ∧
      (∀ r ∈ comparerDeuxAgences nomA a nomB b, ∃ ra ∈ a, ∃ rb ∈ b,
        rb.codeArticle = ra.codeArticle ∧ r.codeArticle = ra.codeArticle ∧
        r.designation = ra.designation ∧ r.stockTheorique = ra.stockTheorique ∧
        r.stockPhysique = ra.stockPhysique ∧ r.ecartRef = ra.ecart ∧
        r.ecartAutre = rb.ecart)) ∧
    (comparerDeuxAgences "X" tableRefExemple "Y" tableAutreExemple).length = 2 := by
  refine ⟨fun nomA a nomB b => ⟨trierParSomme_perm _, fun r hr => ?_⟩, by decide⟩
  obtain ⟨ra, hra, rb, hrb, hcode, rfl⟩ := mem_comparer hr
  exact ⟨ra, hra, rb, hrb, hcode, rfl, rfl, rfl, rfl, rfl, rfl⟩

/-- C5 witness: the reference-A-with-discrepancy-2 row joined to the other
agency's A row is in the output of the concrete example, with all
reference-side fields coming from that reference row. -/
theorem claim5_temoin :
    ∃ ra ∈ tableRefExemple, ∃ rb ∈ tableAutreExemple,
      rb.codeArticle = ra.codeArticle ∧
      (ligneComparaison "X" "Y" (ligneEx "A" 2) (ligneEx "A" 5)).codeArticle = ra.codeArticle ∧
      (ligneComparaison "X" "Y" (ligneEx "A" 2) (ligneEx "A" 5)).designation = ra.designation ∧
      (ligneComparaison "X" "Y" (ligneEx "A" 2) (ligneEx "A" 5)).stockTheorique = ra.stockTheorique ∧
      (ligneComparaison "X" "Y" (ligneEx "A" 2) (ligneEx "A" 5)).stockPhysique = ra.stockPhysique ∧
      (ligneComparaison "X" "Y" (ligneEx "A" 2) (ligneEx "A" 5)).ecartRef = ra.ecart ∧
      (ligneComparaison "X" "Y" (ligneEx "A" 2) (ligneEx "A" 5)).ecartAutre = rb.ecart :=
  (claim5_jointure.1 "X" tableRefExemple "Y" tableAutreExemple).2
    (ligneComparaison "X" "Y" (ligneEx "A" 2) (ligneEx "A" 5)) (by decide)

/-- C7.  In every comparator output row, the two derived columns are the
net difference (other minus reference) and the combined sum (reference
plus other) of the two discrepancies, and a missing discrepancy on either
side makes both derived values missing, never zero. -/
theorem claim7_derives (nomA : String) (a : List Ligne) (nomB : String) (b : List Ligne)
    (r : LigneComp) (hr : r ∈ comparerDeuxAgences nomA a nomB b) :
    (∀ x y : ℚ, r.ecartRef = some x → r.ecartAutre = some y →
      r.ecartDes2 = some (y - x) ∧ r.sommeEcarts = some (x + y)) ∧
    ((r.ecartRef = none ∨ r.ecartAutre = none) →
      r.ecartDes2 = none ∧ r.sommeEcarts = none) := by
  obtain ⟨ra, -, rb, -, -, rfl⟩ := mem_comparer hr
  constructor
  · intro x y hx hy
    simp only [ligneComparaison] at hx hy ⊢
    rw [hx, hy]
    refine ⟨?_, ?_⟩
    · show some (qSoustrait y x) = some (y - x)
      rw [qSoustrait_eq_sub]
    · show some (qAjoute x y) = some (x + y)
      rw [qAjoute_eq_add]
  · rintro (hx | hy)
    · simp only [ligneComparaison] at hx ⊢
      rw [hx]
      cases hrb : rb.ecart <;> simp [diffOpt, sommeOpt]
    · simp only [ligneComparaison] at hy ⊢
      rw [hy]
      cases hra : ra.ecart <;> simp [diffOpt, sommeOpt]

/-- C7 witness: in the concrete example row pairing discrepancies 2 and 5,
the derived columns are 5 - 2 and 2 + 5. -/
theorem claim7_temoin :
    (ligneComparaison "X" "Y" (ligneEx "A" 2) (ligneEx "A" 5)).ecartDes2 =
      some ((5 : ℚ) - (2 : ℚ)) ∧
    (ligneComparaison "X" "Y" (ligneEx "A" 2) (ligneEx "A" 5)).sommeEcarts =
      some ((2 : ℚ) + (5 : ℚ)) :=
  (claim7_derives "X" tableRefExemple "Y" tableAutreExemple
    (ligneComparaison "X" "Y" (ligneEx "A" 2) (ligneEx "A" 5)) (by decide)).1 2 5
    (by decide) (by decide)

/-- Claim C3 counterexample file: canonical headers, three one-cell rows
whose item codes are "A1", a whitespace-only string, and a missing value. -/
def dfExempleC3 : DataFrame :=
  { entetes := ["Code article", "Désignation", "Stock théorique", "Stock physique", "Ecart"]
    lignes := [[Cell.str "A1"], [Cell.str "  "], [Cell.null]] }

/-- C3, counterexample.  Of the three input rows only one has a non-empty
item code ("A1"; the second is whitespace-only, the third missing), yet
the parser keeps two rows, and the second surviving row has the empty
item code "" after trimming: the row filter of line 112 drops only
missing item codes, not empty or whitespace-only ones. -/
theorem claim3_contre_exemple :
    dfExempleC3.lignes.map (fun l => cellAt l 0) =
      [Cell.str "A1", Cell.str "  ", Cell.null] ∧
    (chargerInventaire dfExempleC3).map
      (fun t => (t.length, t.map (fun l => l.codeArticle))) =
      Except.ok (2, ["A1", ""]) :=
  ⟨by decide, by decide⟩

/-- C3, amended.  When parsing succeeds, the output has exactly one row
per input row whose item-code cell is present (non-missing), in input
order, and each surviving row carries the stringified, trimmed item code;
rows whose item code is an empty or whitespace-only string are retained
(with an empty trimmed code), only missing item codes are dropped. -/
theorem claim3_amende (df : DataFrame) (t : List Ligne) (cCode : String)
    (h : chargerInventaire df = Except.ok t)
    (hc : (resoudreColonnes (df.entetes.map nettoyerColonne)).codeArticle = some cCode) :
    t.length =
      (df.lignes.map
        (fun l => cellAt l (indiceDe cCode (df.entetes.map nettoyerColonne)))).countP
        (fun c => !decide (c = Cell.null)) ∧
    t.map (fun l => l.codeArticle) =
      ((df.lignes.map
        (fun l => cellAt l (indiceDe cCode (df.entetes.map nettoyerColonne)))).filter
        (fun c => !decide (c = Cell.null))).map (fun c => couper (astypeStr c)) := by
  simp only [chargerInventaire] at h
  split_ifs at h with hm
  · injection h with ht
    subst ht
    have hcode : ∀ l : List Cell,
        (convertirLigne (projeterLigne (df.entetes.map nettoyerColonne)
          (resoudreColonnes (df.entetes.map nettoyerColonne)) l)).code =
          cellAt l (indiceDe cCode (df.entetes.map nettoyerColonne)) := by
      intro l
      simp [convertirLigne, projeterLigne, champCarte, hc]
    have main : ∀ lignes : List (List Cell),
        (finaliserLignes ((lignes.map (projeterLigne (df.entetes.map nettoyerColonne)
            (resoudreColonnes (df.entetes.map nettoyerColonne)))).map convertirLigne)).length =
          (lignes.map
            (fun l => cellAt l (indiceDe cCode (df.entetes.map nettoyerColonne)))).countP
            (fun c => !decide (c = Cell.null)) ∧
        (finaliserLignes ((lignes.map (projeterLigne (df.entetes.map nettoyerColonne)
            (resoudreColonnes (df.entetes.map nettoyerColonne)))).map convertirLigne)).map
            (fun l => l.codeArticle) =
          ((lignes.map
            (fun l => cellAt l (indiceDe cCode (df.entetes.map nettoyerColonne)))).filter
            (fun c => !decide (c = Cell.null))).map (fun c => couper (astypeStr c)) := by
      intro lignes
      induction lignes with
      | nil => exact ⟨rfl, rfl⟩
      | cons a as ih =>
        obtain ⟨ih1, ih2⟩ := ih
        by_cases hnull : cellAt a (indiceDe cCode (df.entetes.map nettoyerColonne)) = Cell.null
        · constructor
          · simp [finaliserLignes, List.filter_cons, List.countP_cons, hcode, hnull] at ih1 ⊢
            exact ih1
          · simp [finaliserLignes, List.filter_cons, hcode, hnull] at ih2 ⊢
            exact ih2
        · constructor
          · simp [finaliserLignes, List.filter_cons, List.countP_cons, hcode, hnull] at ih1 ⊢
            omega
          · simp [finaliserLignes, List.filter_cons, hcode, hnull] at ih2 ⊢
            exact ih2
    exact main df.lignes

/-- The parse result of the C3 counterexample file. -/
def lignesExempleC3 : List Ligne :=
  [{ codeArticle := "A1", designation := Cell.null, stockTheorique := none,
     stockPhysique := none, ecart := none },
   { codeArticle := "", designation := Cell.null, stockTheorique := none,
     stockPhysique := none, ecart := none }]

/-- C3 witness: the amended statement instantiated on the counterexample
file, whose parse keeps the rows with a present item-code cell. -/
theorem claim3_temoin :
    lignesExempleC3.length =
      (dfExempleC3.lignes.map
        (fun l => cellAt l (indiceDe "Code article" (dfExempleC3.entetes.map nettoyerColonne)))).countP
        (fun c => !decide (c = Cell.null)) ∧
    lignesExempleC3.map (fun l => l.codeArticle) =
      ((dfExempleC3.lignes.map
        (fun l => cellAt l (indiceDe "Code article" (dfExempleC3.entetes.map nettoyerColonne)))).filter
        (fun c => !decide (c = Cell.null))).map (fun c => couper (astypeStr c)) :=
  claim3_amende dfExempleC3 lignesExempleC3 "Code article" (by decide) (by decide)

theorem collecter_longueur (saisies : List Saisie) :
    (collecterAgences saisies).length = saisies.countP estValide := by
  induction saisies with
  | nil => rfl
  | cons s ss ih =>
    cases hf : s.fichier with
    | none =>
      simp [collecterAgences, List.filterMap_cons, List.countP_cons, estValide, hf]
      simpa [collecterAgences] using ih
    | some df =>
      by_cases hn : couper s.nomAgence = ""
      · simp [collecterAgences, List.filterMap_cons, List.countP_cons, estValide, hf, hn]
        simpa [collecterAgences] using ih
      · cases hch : chargerInventaire df with
        | error e =>
          simp [collecterAgences, List.filterMap_cons, List.countP_cons, estValide, hf, hn, hch]
          simpa [collecterAgences] using ih
        | ok t =>
          simp [collecterAgences, List.filterMap_cons, List.countP_cons, estValide, hf, hn, hch]
          simpa [collecterAgences] using ih

/-- C8.  The number of collected agencies equals the number of input slots
with a file, a non-empty stripped name and a successful parse; when fewer
than two such agencies exist at generation time, generation is refused and
produces no document at all; with two or more it proceeds and produces one
report per valid agency. -/
theorem claim8_refus (saisies : List Saisie) :
    (collecterAgences saisies).length = saisies.countP estValide ∧
    (saisies.countP estValide < 2 →
      genererRapports (collecterAgences saisies) = none) ∧
    (2 ≤ saisies.countP estValide →
      ∃ rs, genererRapports (collecterAgences saisies) = some rs ∧
        rs.length = saisies.countP estValide) := by
  refine ⟨collecter_longueur saisies, fun hlt => ?_, fun hge => ?_⟩
  · unfold genererRapports
    rw [if_pos]
    rw [collecter_longueur saisies]
    exact hlt
  · unfold genererRapports
    rw [if_neg]
    · exact ⟨_, rfl, by
        simp only [List.length_map, List.enum_length]
        exact collecter_longueur saisies⟩
    · rw [collecter_longueur saisies]
      omega

/-- An upload slot with a name and a parsable file. -/
def saisieValide : Saisie := { nomAgence := "AIN", fichier := some dfExempleC3 }

/-- An upload slot with no file. -/
def saisieSansFichier : Saisie := { nomAgence := "B", fichier := none }

/-- C8 witness: with one valid agency and one slot without a file, report
generation is refused with no output. -/
theorem claim8_temoin :
    genererRapports (collecterAgences [saisieValide, saisieSansFichier]) = none :=
  (claim8_refus [saisieValide, saisieSansFichier]).2.1 (by decide)

theorem filterMap_ite_filter {α β : Type} (q : α → Prop) [DecidablePred q]
    (g : α → β) (l : List α) :
    (l.filterMap fun x => if q x then none else some (g x)) =
      (l.filter fun x => !decide (q x)).map g := by
  induction l with
  | nil => rfl
  | cons a l ih => by_cases h : q a <;> simp [h, ih]

theorem length_filter_enumFrom_hors {α : Type} :
    ∀ (l : List α) (k i : Nat), i < k →
      ((List.enumFrom k l).filter (fun pj => !decide (pj.1 = i))).length = l.length
  | [], _, _, _ => rfl
  | a :: tl, k, i, h => by
    have hne : ¬(k = i) := by omega
    simp only [List.enumFrom, List.filter_cons, hne, decide_False, Bool.not_false,
      if_true, List.length_cons]
    rw [length_filter_enumFrom_hors tl (k + 1) i (by omega)]

theorem length_filter_enumFrom_dans {α : Type} :
    ∀ (l : List α) (k i : Nat), k ≤ i → i < k + l.length →
      ((List.enumFrom k l).filter (fun pj => !decide (pj.1 = i))).length = l.length - 1
  | [], k, i, h1, h2 => by
    simp only [List.length_nil] at h2
    omega
  | a :: tl, k, i, h1, h2 => by
    simp only [List.length_cons] at h2
    by_cases hk : k = i
    · subst hk
      simp only [List.enumFrom, List.filter_cons, decide_True, Bool.not_true, Bool.false_eq_true,
        if_false, List.length_cons]
      rw [length_filter_enumFrom_hors tl (k + 1) k (by omega)]
      omega
    · simp only [List.enumFrom, List.filter_cons, hk, decide_False, Bool.not_false,
        if_true, List.length_cons]
      rw [length_filter_enumFrom_dans tl (k + 1) i (by omega) (by omega)]
      omega

/-- C9.  A successful generation yields one report per agency, in order;
the report of the agency at position i is labelled with its name and holds
one sheet per other agency, in input order, each named by the
concatenation reference-name, "_vs_", other-name, truncated to 31
characters. -/
theorem claim9_rapports (infos : List (String × List Ligne)) (rs : List Rapport)
    (h : genererRapports infos = some rs) :
    rs.length = infos.length ∧
    (∀ (i : Nat) (nomRef : String) (dfRef : List Ligne) (r : Rapport),
      infos[i]? = some (nomRef, dfRef) → rs[i]? = some r →
      r.agence = nomRef ∧
      r.feuilles.length = infos.length - 1 ∧
      r.feuilles.map (fun f => f.nom) =
        ((infos.enum.filter (fun pj => !decide (pj.1 = i))).map
          (fun pj => prendre (nomRef ++ "_vs_" ++ pj.2.1) 31))) := by
  unfold genererRapports at h
  split_ifs at h with hlen
  injection h with h
  subst h
  constructor
  · simp [List.length_map, List.enum_length]
  · intro i nomRef dfRef r hi hr
    have hiLt : i < infos.length := by
      rw [List.getElem?_eq_some] at hi
      exact hi.1
    rw [List.getElem?_map, List.getElem?_enum, hi] at hr
    injection hr with hr
    subst hr
    dsimp only
    refine ⟨rfl, ?_, ?_⟩
    · rw [filterMap_ite_filter (fun pj : Nat × (String × List Ligne) => pj.1 = i)]
      rw [List.length_map]
      exact length_filter_enumFrom_dans infos 0 i (by omega) (by omega)
    · rw [filterMap_ite_filter (fun pj : Nat × (String × List Ligne) => pj.1 = i)]
      rw [List.map_map]
      rfl

/-- The two-agency input of the C9 witness, with empty tables. -/
def infosTemoin : List (String × List Ligne) := [("A", []), ("B", [])]

/-- The generated reports of the C9 witness input. -/
def rsTemoin : List Rapport :=
  [{ agence := "A", feuilles := [{ nom := "A_vs_B", donnees := [] }] },
   { agence := "B", feuilles := [{ nom := "B_vs_A", donnees := [] }] }]

/-- C9 witness: with two agencies A and B, the report at position 0 is
labelled A, has exactly one sheet, and its sheet names come from the other
entries in order. -/
theorem claim9_temoin :
    (rsTemoin.get ⟨0, by decide⟩).agence = "A" ∧
    (rsTemoin.get ⟨0, by decide⟩).feuilles.length = infosTemoin.length - 1 ∧
    (rsTemoin.get ⟨0, by decide⟩).feuilles.map (fun f => f.nom) =
      ((infosTemoin.enum.filter (fun pj => !decide (pj.1 = 0))).map
        (fun pj => prendre ("A" ++ "_vs_" ++ pj.2.1) 31)) :=
  (claim9_rapports infosTemoin rsTemoin (by decide)).2 0 "A" []
    (rsTemoin.get ⟨0, by decide⟩) (by decide) (by decide)

end Inventaires
